import Mathlib

/-!
Shallow embedding of the FinanceTracker data-access layer
(`SmartTaskTracker/finance_control/database.py`) and of the report
percentage rendering (`finance_control/reports.py`).

Modelling conventions:
* The SQLite database file is modelled as an explicit `DBState` value
  holding the `categories` and `transactions` tables as lists in rowid
  (insertion) order; every repository operation is a pure function from
  the old state to its return value and the new state.
* SQLite `REAL` amounts are modelled as `ℚ` (exact field arithmetic for
  the sums the queries compute).
* `datetime.now()` is modelled as an explicit `now : Date` argument.
* Transaction `type` is stored as the two-valued enumeration `TxType`:
  every write path (`add_transaction` / `update_transaction`) validates
  the raw string against {"income", "expense"} before storing, so all
  representable states carry one of the two values.  Category `type` is
  kept as a raw string because `add_category` performs no validation.
* `INTEGER PRIMARY KEY` assignment (`cursor.lastrowid`) is modelled as
  `max existing id + 1` (1 on an empty table), SQLite's rowid rule.
-/

namespace FinanceTracker

/-- Transaction type enumeration: `'income' | 'expense'`. -/
inductive TxType where
  | income : TxType
  | expense : TxType
deriving DecidableEq, Repr

def TxType.toStr : TxType → String
  | .income => "income"
  | .expense => "expense"

/-- A row of the `categories` table:
`id INTEGER PRIMARY KEY, name TEXT NOT NULL, color TEXT NOT NULL, type TEXT NOT NULL`.
The python column `type` is rendered as `ctype` (`type` is a Lean keyword). -/
structure Category where
  id : Nat
  name : String
  color : String
  ctype : String
deriving DecidableEq, Repr

/-- A row of the `transactions` table:
`id INTEGER PRIMARY KEY, amount REAL NOT NULL, category_id INTEGER (nullable FK),
date TEXT NOT NULL, description TEXT, type TEXT NOT NULL`. -/
structure Transaction where
  id : Nat
  amount : ℚ
  category_id : Option Nat
  date : String
  description : String
  ttype : TxType
deriving DecidableEq, Repr

/-- The database file contents: both tables, rows in rowid order. -/
structure DBState where
  categories : List Category
  transactions : List Transaction
deriving DecidableEq, Repr

/-- SQLite rowid assignment for `INTEGER PRIMARY KEY`:
one more than the largest existing rowid, 1 on an empty table. -/
def newRowId (ids : List Nat) : Nat :=
  ids.foldr max 0 + 1

/-- A calendar date as handled by python `datetime` (date part only). -/
structure Date where
  year : Nat
  month : Nat
  day : Nat
deriving DecidableEq, Repr

/-- Day count of a month, with the Gregorian leap rule
(`datetime`'s validation when `strptime` builds the date). -/
def daysInMonth (y m : Nat) : Nat :=
  if m = 2 then
    if y % 4 = 0 ∧ (y % 100 ≠ 0 ∨ y % 400 = 0) then 29 else 28
  else if m = 4 ∨ m = 6 ∨ m = 9 ∨ m = 11 then 30
  else 31

/-- Left-pad a natural number with zeros to the given width
(`strftime` zero padding). -/
def padNum (w : Nat) (n : Nat) : String :=
  let s := toString n
  ⟨List.replicate (w - s.length) '0'⟩ ++ s

/-- `date.strftime("%Y-%m-%d")`. -/
def formatDate (d : Date) : String :=
  padNum 4 d.year ++ "-" ++ padNum 2 d.month ++ "-" ++ padNum 2 d.day

/-- Split a character list on `'-'` (the `st.split("-")` underlying the
`strptime` field matching; character-list form so the kernel can evaluate it). -/
def splitDash : List Char → List (List Char)
  | [] => [[]]
  | c :: cs =>
    if c = '-' then [] :: splitDash cs
    else
      match splitDash cs with
      | [] => [[c]]
      | p :: ps => (c :: p) :: ps

/-- Decimal value of a digit list. -/
def digitsVal (cs : List Char) : Nat :=
  cs.foldl (fun acc c => acc * 10 + (c.toNat - 48)) 0

/-- `datetime.strptime(st, "%Y-%m-%d")`: `%Y` matches exactly four digits,
`%m` and `%d` one or two digits, the whole string must be consumed, and the
resulting (year, month, day) must be a valid `datetime` date
(year ≥ 1, month 1–12, day within the month).  Returns `none` where python
raises `ValueError`. -/
def parseDate (st : String) : Option Date :=
  match splitDash st.data with
  | [ys, ms, ds] =>
    if ys.length = 4 ∧ ys.all Char.isDigit
        ∧ 1 ≤ ms.length ∧ ms.length ≤ 2 ∧ ms.all Char.isDigit
        ∧ 1 ≤ ds.length ∧ ds.length ≤ 2 ∧ ds.all Char.isDigit then
      let y := digitsVal ys
      let mo := digitsVal ms
      let da := digitsVal ds
      if 1 ≤ y ∧ 1 ≤ mo ∧ mo ≤ 12 ∧ 1 ≤ da ∧ da ≤ daysInMonth y mo then
        some ⟨y, mo, da⟩
      else none
    else none
  | _ => none

/-- SQLite's text collation (`memcmp` over the encoded text, lexicographic
character order on these ASCII date strings), as python's `str` comparison;
stated on `String.data` so the kernel can evaluate it. -/
def strLe (a b : String) : Prop := a.data ≤ b.data

instance : DecidableRel strLe :=
  fun a b => inferInstanceAs (Decidable (a.data ≤ b.data))

instance : IsTotal String strLe := ⟨fun a b => le_total a.data b.data⟩

instance : IsTrans String strLe := ⟨fun _ _ _ h1 h2 => le_trans h1 h2⟩

namespace Database

/-- `Database.add_category(name, color, category_type)`:
a `SELECT id FROM categories WHERE name = ? AND type = ?` probe first;
if a row matches, its id is returned and nothing is inserted, otherwise a
new row is inserted and its fresh rowid returned.  (`fetchone` yields the
first row in rowid order, which is list order here.) -/
def add_category (name color category_type : String) (s : DBState) :
    Option Nat × DBState :=
  match s.categories.find? (fun c => c.name = name ∧ c.ctype = category_type) with
  | some c => (some c.id, s)
  | none =>
    let i := newRowId (s.categories.map (·.id))
    (some i, { s with categories := s.categories ++ [⟨i, name, color, category_type⟩] })

/-- `Database.update_category(category_id, name, color)`:
`UPDATE categories SET name = ?, color = ? WHERE id = ?`;
returns `rowcount > 0`. -/
def update_category (category_id : Nat) (name color : String) (s : DBState) :
    Bool × DBState :=
  let matched := s.categories.countP (fun c => c.id = category_id)
  (0 < matched,
    { s with categories :=
        s.categories.map (fun c =>
          if c.id = category_id then { c with name := name, color := color } else c) })

/-- `Database.delete_category(category_id)`:
first `UPDATE transactions SET category_id = NULL WHERE category_id = ?`,
then `DELETE FROM categories WHERE id = ?`; returns the delete's
`rowcount > 0`. -/
def delete_category (category_id : Nat) (s : DBState) : Bool × DBState :=
  let ts := s.transactions.map (fun t =>
    if t.category_id = some category_id then { t with category_id := none } else t)
  let deleted := s.categories.countP (fun c => c.id = category_id)
  (0 < deleted,
    { categories := s.categories.filter (fun c => ¬ c.id = category_id),
      transactions := ts })

/-- The `date` argument of `add_transaction`: python's `None`,
a `datetime` object, or a raw string. -/
inductive DateArg where
  | noDate : DateArg
  | dt : Date → DateArg
  | str : String → DateArg
deriving DecidableEq, Repr

/-- `Database.add_transaction(amount, category_id, description, transaction_type, date)`:
validates the type string and the amount (raising, caught, returns `None`);
a missing date defaults to `now`, a string date that fails `strptime`
silently falls back to `now`; then inserts the row.  No category-existence
check is made (the declared foreign key is not enforced by the engine's
defaults). -/
def add_transaction (amount : ℚ) (category_id : Option Nat) (description : String)
    (transaction_type : String) (date : DateArg) (now : Date) (s : DBState) :
    Option Nat × DBState :=
  if ¬ (transaction_type = "income" ∨ transaction_type = "expense") then (none, s)
  else if amount ≤ 0 then (none, s)
  else
    let d : Date :=
      match date with
      | .noDate => now
      | .dt d => d
      | .str st => match parseDate st with
        | some d => d
        | none => now
    let date_str := formatDate d
    let tt : TxType := if transaction_type = "income" then .income else .expense
    let i := newRowId (s.transactions.map (·.id))
    (some i,
      { s with transactions :=
          s.transactions ++ [⟨i, amount, category_id, date_str, description, tt⟩] })

/-- The `date` argument of `update_transaction`: required, a `datetime`
object or a raw string. -/
inductive UpdDateArg where
  | dt : Date → UpdDateArg
  | str : String → UpdDateArg
deriving DecidableEq, Repr

/-- `Database.update_transaction(transaction_id, amount, category_id, description, date, transaction_type)`:
same type and amount validation as `add_transaction`, but a string date
that fails `strptime` is a hard failure (`ValueError`, caught, returns
`False`); otherwise `UPDATE ... WHERE id = ?` and `rowcount > 0`. -/
def update_transaction (transaction_id : Nat) (amount : ℚ) (category_id : Option Nat)
    (description : String) (date : UpdDateArg) (transaction_type : String)
    (s : DBState) : Bool × DBState :=
  if ¬ (transaction_type = "income" ∨ transaction_type = "expense") then (false, s)
  else if amount ≤ 0 then (false, s)
  else
    let d? : Option Date :=
      match date with
      | .dt d => some d
      | .str st => parseDate st
    match d? with
    | none => (false, s)
    | some d =>
      let date_str := formatDate d
      let tt : TxType := if transaction_type = "income" then .income else .expense
      let matched := s.transactions.countP (fun t => t.id = transaction_id)
      (0 < matched,
        { s with transactions :=
            s.transactions.map (fun t =>
              if t.id = transaction_id then
                ⟨t.id, amount, category_id, date_str, description, tt⟩
              else t) })

/-- `Database.delete_transaction(transaction_id)`:
`DELETE FROM transactions WHERE id = ?`; returns `rowcount > 0`. -/
def delete_transaction (transaction_id : Nat) (s : DBState) : Bool × DBState :=
  let deleted := s.transactions.countP (fun t => t.id = transaction_id)
  (0 < deleted,
    { s with transactions := s.transactions.filter (fun t => ¬ t.id = transaction_id) })

/-- `Database.get_balance()`:
`SELECT SUM(amount) ... WHERE type = 'income'` (SQL `SUM` is `NULL` on an
empty group, the code maps that to 0), the same for `'expense'`, and the
difference. -/
def get_balance (s : DBState) : ℚ :=
  let incomes := (s.transactions.filter (fun t => t.ttype = .income)).map (·.amount)
  let expenses := (s.transactions.filter (fun t => t.ttype = .expense)).map (·.amount)
  let total_income := if incomes = [] then 0 else incomes.sum
  let total_expense := if expenses = [] then 0 else expenses.sum
  total_income - total_expense

/-- The `LEFT JOIN categories c ON t.category_id = c.id` probe: `NULL`
joins nothing, otherwise the unique row with the primary-key id (list
search; `id` is `INTEGER PRIMARY KEY`, so at most one row matches). -/
def lookupCategory (cats : List Category) (cid? : Option Nat) : Option Category :=
  cid?.bind (fun cid => cats.find? (fun c => c.id = cid))

/-- Python `x if x else fb` over a nullable string column:
`None` and `""` are both falsy. -/
def orFallback (v : Option String) (fb : String) : String :=
  match v with
  | some st => if st = "" then fb else st
  | none => fb

/-- A transaction dictionary as returned by the listing queries: the row
joined with its category's display columns (nullable when the join misses). -/
structure TxView where
  id : Nat
  amount : ℚ
  category_id : Option Nat
  category_name : Option String
  category_color : Option String
  date : String
  description : String
  ttype : TxType
deriving DecidableEq, Repr

/-- Row mapping of `get_all_transactions` / `get_transactions_by_type` /
`get_transactions_by_date_range`: joined display columns with the
`"Без категории"` / `"#607D8B"` fallbacks. -/
def viewWithFallback (cats : List Category) (t : Transaction) : TxView :=
  let c? := lookupCategory cats t.category_id
  ⟨t.id, t.amount, t.category_id,
    some (orFallback (c?.map (·.name)) "Без категории"),
    some (orFallback (c?.map (·.color)) "#607D8B"),
    t.date, t.description, t.ttype⟩

/-- Row mapping of `get_transactions_by_category`: the raw joined columns,
no fallback substitution. -/
def viewRaw (cats : List Category) (t : Transaction) : TxView :=
  let c? := lookupCategory cats t.category_id
  ⟨t.id, t.amount, t.category_id, c?.map (·.name), c?.map (·.color),
    t.date, t.description, t.ttype⟩

/-- `ORDER BY t.date DESC` (dates are `YYYY-MM-DD` text, compared as text). -/
def byDateDesc (a b : Transaction) : Prop := strLe b.date a.date

instance : DecidableRel byDateDesc :=
  fun a b => inferInstanceAs (Decidable (b.date.data ≤ a.date.data))

instance : IsTotal Transaction byDateDesc :=
  ⟨fun a b => (le_total a.date.data b.date.data).symm⟩

instance : IsTrans Transaction byDateDesc :=
  ⟨fun _ _ _ h1 h2 => le_trans (α := List Char) h2 h1⟩

/-- `Database.get_all_transactions()`. -/
def get_all_transactions (s : DBState) : List TxView :=
  (List.insertionSort byDateDesc s.transactions).map (viewWithFallback s.categories)

/-- `Database.get_transactions_by_type(transaction_type)`:
`WHERE t.type = ?` over the raw string argument. -/
def get_transactions_by_type (transaction_type : String) (s : DBState) : List TxView :=
  (List.insertionSort byDateDesc
      (s.transactions.filter (fun t => t.ttype.toStr = transaction_type))).map
    (viewWithFallback s.categories)

/-- `Database.get_transactions_by_date_range(start_date, end_date)`:
`datetime` bounds arrive already formatted as `YYYY-MM-DD` strings; a
missing end bound defaults to `now`; `BETWEEN` is the inclusive text
comparison. -/
def get_transactions_by_date_range (start_date : String) (end_date : Option String)
    (now : Date) (s : DBState) : List TxView :=
  let e := end_date.getD (formatDate now)
  (List.insertionSort byDateDesc
      (s.transactions.filter (fun t => strLe start_date t.date ∧ strLe t.date e))).map
    (viewWithFallback s.categories)

/-- `Database.get_transactions_by_category(category_id)`:
`WHERE t.category_id = ?`; the row mapping copies the joined columns with
no fallback. -/
def get_transactions_by_category (category_id : Nat) (s : DBState) : List TxView :=
  (List.insertionSort byDateDesc
      (s.transactions.filter (fun t => t.category_id = some category_id))).map
    (viewRaw s.categories)

/-- Python truthiness of an optional string bound: `None` and `""` are falsy. -/
def truthy (o : Option String) : Bool :=
  match o with
  | none => false
  | some st => st ≠ ""

/-- The optional date bounding common to the aggregate queries
(`if start_date and end_date: BETWEEN / elif start_date: >= / elif end_date: <=`,
no condition otherwise; `datetime` bounds arrive formatted as strings). -/
def dateCond (start_date end_date : Option String) (d : String) : Bool :=
  if truthy start_date && truthy end_date then
    decide (strLe (start_date.getD "") d) && decide (strLe d (end_date.getD ""))
  else if truthy start_date then decide (strLe (start_date.getD "") d)
  else if truthy end_date then decide (strLe d (end_date.getD ""))
  else true

/-- The grouping key of the per-category aggregates:
`COALESCE(c.id, 0), COALESCE(c.name, 'Без категории'), COALESCE(c.color, '#607D8B')`
after the left join (all three coalesce together: they are null exactly
when the join missed, the joined columns being `NOT NULL`). -/
def joinKey (cats : List Category) (t : Transaction) : Nat × String × String :=
  match lookupCategory cats t.category_id with
  | some c => (c.id, c.name, c.color)
  | none => (0, "Без категории", "#607D8B")

/-- A row of the per-category aggregate result. -/
structure CatSum where
  category_id : Nat
  category_name : String
  category_color : String
  total : ℚ
deriving DecidableEq, Repr

/-- `ORDER BY total DESC`. -/
def byTotalDesc (a b : CatSum) : Prop := b.total ≤ a.total

instance : DecidableRel byTotalDesc :=
  fun a b => inferInstanceAs (Decidable (b.total ≤ a.total))

instance : IsTotal CatSum byTotalDesc :=
  ⟨fun a b => (le_total a.total b.total).symm⟩

instance : IsTrans CatSum byTotalDesc :=
  ⟨fun _ _ _ h1 h2 => le_trans h2 h1⟩

/-- Shared body of `get_expenses_by_category` and `get_income_by_category`
(the two python methods are textually identical up to the `t.type`
literal): filter by type and optional bounds, group by the coalesced
category key, `SUM(t.amount)` per group, `ORDER BY total DESC`. -/
def sum_by_category (tt : TxType) (start_date end_date : Option String)
    (s : DBState) : List CatSum :=
  let matching := s.transactions.filter
    (fun t => decide (t.ttype = tt) && dateCond start_date end_date t.date)
  let keys := (matching.map (joinKey s.categories)).dedup
  let recs := keys.map (fun k =>
    ⟨k.1, k.2.1, k.2.2,
      ((matching.filter (fun t => joinKey s.categories t = k)).map (·.amount)).sum⟩)
  List.insertionSort byTotalDesc recs

/-- `Database.get_expenses_by_category(start_date, end_date)`. -/
def get_expenses_by_category (start_date end_date : Option String) (s : DBState) :
    List CatSum :=
  sum_by_category .expense start_date end_date s

/-- `Database.get_income_by_category(start_date, end_date)`. -/
def get_income_by_category (start_date end_date : Option String) (s : DBState) :
    List CatSum :=
  sum_by_category .income start_date end_date s

/-- `strftime('%Y-%m', t.date)` over the stored `YYYY-MM-DD` text:
its first seven characters. -/
def monthOf (d : String) : String := d.take 7

/-- One record of the by-month aggregate. -/
structure MonthRec where
  month : String
  income : ℚ
  expense : ℚ
  balance : ℚ
deriving DecidableEq, Repr

/-- Ascending month order (`ORDER BY month ASC`, and the final
`result.sort(key month)`). -/
def byMonthAsc (a b : MonthRec) : Prop := strLe a.month b.month

instance : DecidableRel byMonthAsc :=
  fun a b => inferInstanceAs (Decidable (a.month.data ≤ b.month.data))

instance : IsTotal MonthRec byMonthAsc :=
  ⟨fun a b => le_total a.month.data b.month.data⟩

instance : IsTrans MonthRec byMonthAsc :=
  ⟨fun _ _ _ h1 h2 => le_trans (α := List Char) h1 h2⟩

/-- The amounts of the `(month, type)` group within the matching rows. -/
def groupAmounts (ts : List Transaction) (m : String) (tt : TxType) : List ℚ :=
  (ts.filter (fun t => decide (monthOf t.date = m) && decide (t.ttype = tt))).map (·.amount)

/-- The distinct months of the matching rows, ascending
(the `GROUP BY strftime('%Y-%m', t.date) ... ORDER BY month ASC` key order). -/
def monthKeys (ts : List Transaction) : List String :=
  List.insertionSort strLe ((ts.map (fun t => monthOf t.date)).dedup)

/-- The grouped rows of one month: one row per non-empty `(month, type)`
group (`'expense'` sorts before `'income'` within a month; the client
fold below is insensitive to that order). -/
def monthRowsFor (ts : List Transaction) (m : String) : List (String × TxType × ℚ) :=
  (if groupAmounts ts m .expense = [] then []
   else [(m, TxType.expense, (groupAmounts ts m .expense).sum)]) ++
  (if groupAmounts ts m .income = [] then []
   else [(m, TxType.income, (groupAmounts ts m .income).sum)])

/-- The `(month, type, SUM(amount))` rows the grouped query returns,
months ascending. -/
def monthRows (ts : List Transaction) : List (String × TxType × ℚ) :=
  (monthKeys ts).flatMap (monthRowsFor ts)

/-- The per-row dictionary update of the client-side fold: set the row's
type sum, then recompute `balance = income - expense`. -/
def updMonthRec (tt : TxType) (total : ℚ) (r : MonthRec) : MonthRec :=
  let r1 := match tt with
    | .income => { r with income := total }
    | .expense => { r with expense := total }
  { r1 with balance := r1.income - r1.expense }

/-- One step of the client-side fold over the `(month, type, total)` rows:
python's insertion-ordered `monthly_data` dict is the accumulator list,
keyed by the `month` field. -/
def foldMonthRow (acc : List MonthRec) : String × TxType × ℚ → List MonthRec
  | (m, tt, total) =>
    if acc.any (fun r => r.month = m) then
      acc.map (fun r => if r.month = m then updMonthRec tt total r else r)
    else
      acc ++ [updMonthRec tt total ⟨m, 0, 0, 0⟩]

/-- `Database.get_transactions_by_month(start_date, end_date)`:
the grouped query, the client-side fold into one record per month, then
`result.sort(key=lambda x: x['month'])`. -/
def get_transactions_by_month (start_date end_date : Option String)
    (s : DBState) : List MonthRec :=
  let matching := s.transactions.filter (fun t => dateCond start_date end_date t.date)
  let folded := (monthRows matching).foldl foldMonthRow []
  List.insertionSort byMonthAsc folded

end Database

/-- The report dictionary fields `generate_text_report` reads for the two
per-category sections (`finance_control/reports.py`): the grand totals and
the per-category amounts, category label to amount, in rendering order. -/
structure Report where
  total_income : ℚ
  total_expense : ℚ
  income_by_category : List (String × ℚ)
  expenses_by_category : List (String × ℚ)
deriving DecidableEq, Repr

namespace ReportGenerator

/-- `amount / total * 100 if total > 0 else 0` — the percentage expression
of both category sections of `generate_text_report`. -/
def pctOf (amount total : ℚ) : ℚ :=
  if total > 0 then amount / total * 100 else 0

/-- The `(category, amount, percentage)` triples interpolated into the
income-section lines of `generate_text_report`, in order. -/
def incomeLines (r : Report) : List (String × ℚ × ℚ) :=
  r.income_by_category.map (fun p => (p.1, p.2, pctOf p.2 r.total_income))

/-- The `(category, amount, percentage)` triples interpolated into the
expense-section lines of `generate_text_report`, in order. -/
def expenseLines (r : Report) : List (String × ℚ × ℚ) :=
  r.expenses_by_category.map (fun p => (p.1, p.2, pctOf p.2 r.total_expense))

end ReportGenerator

open Database

/-! ### Shared example database

The running scenario of the verification: two categories and three
transactions (income 1000 on 2024-01-05, expense 300 on 2024-01-10,
expense 200 on 2024-02-01). -/

def exDB : DBState :=
  ⟨[⟨1, "Salary", "#4CAF50", "income"⟩, ⟨2, "Food", "#2196F3", "expense"⟩],
   [⟨1, 1000, some 1, "2024-01-05", "", .income⟩,
    ⟨2, 300, some 2, "2024-01-10", "", .expense⟩,
    ⟨3, 200, some 2, "2024-02-01", "", .expense⟩]⟩

/-! ### C5: balance -/

/-- C5: for every transaction set, including the empty one, `get_balance`
equals the sum of all income amounts minus the sum of all expense amounts,
each side being 0 when it has no rows. -/
theorem get_balance_eq (s : DBState) :
    Database.get_balance s =
      ((s.transactions.filter (fun t => t.ttype = TxType.income)).map (·.amount)).sum
        - ((s.transactions.filter (fun t => t.ttype = TxType.expense)).map (·.amount)).sum := by
  have hz : ∀ l : List ℚ, (if l = [] then (0 : ℚ) else l.sum) = l.sum := by
    intro l
    split
    · simp_all
    · rfl
  simp only [Database.get_balance, hz]

/-! ### C2: transaction validation -/

/-- C2: `add_transaction` returns no identifier and leaves the
transactions table unchanged whenever `amount <= 0` or the type string is
outside {"income", "expense"}. -/
theorem add_transaction_rejects_invalid (amount : ℚ) (category_id : Option Nat)
    (description transaction_type : String) (date : Database.DateArg) (now : Date)
    (s : DBState)
    (h : amount ≤ 0 ∨ ¬ (transaction_type = "income" ∨ transaction_type = "expense")) :
    Database.add_transaction amount category_id description transaction_type date now s
      = (none, s) := by
  unfold Database.add_transaction
  rcases h with ha | ht
  · by_cases h1 : transaction_type = "income" ∨ transaction_type = "expense"
    · rw [if_neg (not_not_intro h1), if_pos ha]
    · rw [if_pos h1]
  · rw [if_pos ht]

/-- Witness for C2 at the spec's scenario input `amount = -5`. -/
theorem add_transaction_rejects_invalid_w :
    Database.add_transaction (-5) (some 1) "" "expense" .noDate ⟨2025, 1, 1⟩ exDB
      = (none, exDB) :=
  add_transaction_rejects_invalid (-5) (some 1) "" "expense" .noDate ⟨2025, 1, 1⟩ exDB
    (Or.inl (by norm_num))

/-! ### C3: asymmetric malformed-date handling -/

/-- C3: with a string date that does not parse as `YYYY-MM-DD` (and
otherwise valid inputs), `add_transaction` silently substitutes the
current date and still inserts the row, while `update_transaction` with
the same malformed string returns false and leaves the state unchanged. -/
theorem date_handling_asymmetric (amount : ℚ) (category_id : Option Nat)
    (description st transaction_type : String) (now : Date) (transaction_id : Nat)
    (s : DBState)
    (hp : parseDate st = none) (ha : 0 < amount)
    (ht : transaction_type = "income" ∨ transaction_type = "expense") :
    Database.add_transaction amount category_id description transaction_type
        (.str st) now s
      = (some (newRowId (s.transactions.map (·.id))),
         { s with transactions := s.transactions ++
             [⟨newRowId (s.transactions.map (·.id)), amount, category_id,
               formatDate now, description,
               if transaction_type = "income" then .income else .expense⟩] })
    ∧ Database.update_transaction transaction_id amount category_id description
        (.str st) transaction_type s = (false, s) := by
  constructor
  · unfold Database.add_transaction
    rw [if_neg (not_not_intro ht), if_neg (not_le.mpr ha)]
    simp only [hp]
  · unfold Database.update_transaction
    rw [if_neg (not_not_intro ht), if_neg (not_le.mpr ha)]
    simp only [hp]

/-- Witness for C3: the malformed date string `"oops"` at a concrete state. -/
theorem date_handling_asymmetric_w :
    Database.add_transaction 50 (some 99) "d" "expense" (.str "oops") ⟨2025, 3, 4⟩ exDB
      = (some (newRowId (exDB.transactions.map (·.id))),
         { exDB with transactions := exDB.transactions ++
             [⟨newRowId (exDB.transactions.map (·.id)), 50, some 99,
               formatDate ⟨2025, 3, 4⟩, "d",
               if "expense" = "income" then .income else .expense⟩] })
    ∧ Database.update_transaction 2 50 (some 99) "d" (.str "oops") "expense" exDB
      = (false, exDB) :=
  date_handling_asymmetric 50 (some 99) "d" "oops" "expense" ⟨2025, 3, 4⟩ 2 exDB
    (by decide) (by norm_num) (Or.inr rfl)

/-! ### C4: category deletion detaches transactions -/

/-- The `rowcount > 0` boolean equals `List.any` of the row predicate. -/
theorem decide_countP_pos_eq_any {α : Type} (p : α → Bool) (l : List α) :
    (decide (0 < l.countP p)) = l.any p := by
  cases hb : l.any p
  · have h0 : l.countP p = 0 :=
      List.countP_eq_zero.mpr (by simpa [List.any_eq_false] using hb)
    simp [h0]
  · obtain ⟨a, ha, hp⟩ := List.any_eq_true.mp hb
    have h1 : 0 < l.countP p := List.countP_pos_iff.mpr ⟨a, ha, hp⟩
    simp [h1]

/-- C4: `delete_category` nulls the `category_id` of every transaction
referencing the deleted category, keeps every transaction row (same
count), removes the category row, returns true exactly when a category
row was removed, and leaves the transactions table untouched when nothing
referenced the category. -/
theorem delete_category_detaches (category_id : Nat) (s : DBState) :
    (Database.delete_category category_id s).1
        = s.categories.any (fun c => c.id = category_id)
    ∧ (Database.delete_category category_id s).2.transactions.length
        = s.transactions.length
    ∧ (Database.delete_category category_id s).2.transactions
        = s.transactions.map (fun t =>
            if t.category_id = some category_id then { t with category_id := none } else t)
    ∧ (Database.delete_category category_id s).2.transactions.countP
        (fun t => t.category_id = some category_id) = 0
    ∧ (Database.delete_category category_id s).2.categories
        = s.categories.filter (fun c => ¬ c.id = category_id)
    ∧ (s.transactions.countP (fun t => t.category_id = some category_id) = 0 →
        (Database.delete_category category_id s).2.transactions = s.transactions) := by
  refine ⟨?_, List.length_map .., rfl, ?_, rfl, ?_⟩
  · exact decide_countP_pos_eq_any (fun c => c.id = category_id) s.categories
  · rw [List.countP_eq_zero]
    intro t ht
    obtain ⟨u, _, hu⟩ := List.mem_map.mp ht
    by_cases hcase : u.category_id = some category_id
    · rw [if_pos hcase] at hu
      simp [← hu]
    · rw [if_neg hcase] at hu
      simpa [← hu] using hcase
  · intro h0
    rw [List.countP_eq_zero] at h0
    have h1 : ∀ t ∈ s.transactions,
        (if t.category_id = some category_id then { t with category_id := none } else t) = t := by
      intro t ht
      rw [if_neg (by simpa using h0 t ht)]
    show s.transactions.map _ = s.transactions
    rw [List.map_congr_left h1, List.map_id']

/-! ### C9: report percentages -/

/-- C9: in the text rendering of a report, each category line's percentage
equals the category amount divided by the respective grand total times
100 when that total is positive, and 0 when the total is 0 (the guarded
branch — the division never runs on a zero total). -/
theorem report_percentages (r : Report) :
    (∀ x ∈ ReportGenerator.incomeLines r,
        (0 < r.total_income → x.2.2 = x.2.1 / r.total_income * 100)
      ∧ (r.total_income = 0 → x.2.2 = 0))
    ∧ (∀ x ∈ ReportGenerator.expenseLines r,
        (0 < r.total_expense → x.2.2 = x.2.1 / r.total_expense * 100)
      ∧ (r.total_expense = 0 → x.2.2 = 0)) := by
  constructor
  · intro x hx
    obtain ⟨p, _, hp⟩ := List.mem_map.mp hx
    subst hp
    constructor
    · intro hpos
      simp [ReportGenerator.pctOf, hpos]
    · intro hzero
      simp [ReportGenerator.pctOf, hzero]
  · intro x hx
    obtain ⟨p, _, hp⟩ := List.mem_map.mp hx
    subst hp
    constructor
    · intro hpos
      simp [ReportGenerator.pctOf, hpos]
    · intro hzero
      simp [ReportGenerator.pctOf, hzero]

/-! ### C1: category (name, type) uniqueness -/

/-- The C1 invariant: at most one category row per (name, type) pair. -/
def CatKeyUnique (s : DBState) : Prop :=
  (s.categories.map (fun c => (c.name, c.ctype))).Nodup

instance : DecidablePred CatKeyUnique :=
  fun s => inferInstanceAs (Decidable ((s.categories.map _).Nodup))

/-- A sequence of `add_category` calls, state-folded. -/
def applyAdds (ops : List (String × String × String)) (s : DBState) : DBState :=
  ops.foldl (fun s op => (Database.add_category op.1 op.2.1 op.2.2 s).2) s

/-- `add_category` only ever appends rows: existing rows persist. -/
theorem add_category_mem (name color category_type : String) (s : DBState)
    (c : Category) (hc : c ∈ s.categories) :
    c ∈ (Database.add_category name color category_type s).2.categories := by
  unfold Database.add_category
  cases h : s.categories.find? (fun c => c.name = name ∧ c.ctype = category_type) with
  | some d => exact hc
  | none => exact List.mem_append_left _ hc

/-- Rows persist across any sequence of `add_category` calls. -/
theorem applyAdds_mem (ops : List (String × String × String)) (s : DBState)
    (c : Category) (hc : c ∈ s.categories) :
    c ∈ (applyAdds ops s).categories := by
  induction ops generalizing s with
  | nil => exact hc
  | cons op ops ih =>
    exact ih _ (add_category_mem op.1 op.2.1 op.2.2 s c hc)

/-- One `add_category` call preserves the (name, type) uniqueness invariant. -/
theorem add_category_preserves (name color category_type : String) (s : DBState)
    (h : CatKeyUnique s) :
    CatKeyUnique (Database.add_category name color category_type s).2 := by
  unfold Database.add_category
  cases hf : s.categories.find? (fun c => c.name = name ∧ c.ctype = category_type) with
  | some d => exact h
  | none =>
    unfold CatKeyUnique at h ⊢
    rw [List.map_append, List.nodup_append]
    refine ⟨h, List.nodup_singleton _, ?_⟩
    intro k hk hk1
    simp only [List.map_cons, List.map_nil, List.mem_singleton] at hk1
    obtain ⟨c, hcmem, hck⟩ := List.mem_map.mp hk
    have hnone := List.find?_eq_none.mp hf c hcmem
    simp only [decide_eq_true_eq, not_and] at hnone
    rw [hk1] at hck
    exact hnone (congrArg Prod.fst hck) (congrArg Prod.snd hck)

/-- The invariant is preserved by any sequence of `add_category` calls. -/
theorem applyAdds_preserves (ops : List (String × String × String)) (s : DBState)
    (h : CatKeyUnique s) : CatKeyUnique (applyAdds ops s) := by
  induction ops generalizing s with
  | nil => exact h
  | cons op ops ih =>
    exact ih _ (add_category_preserves op.1 op.2.1 op.2.2 s h)

/-- Under the invariant, the duplicate probe finds exactly the row holding
the (name, type) pair. -/
theorem find_of_unique (name category_type : String) (l : List Category)
    (h : (l.map (fun c => (c.name, c.ctype))).Nodup)
    (c : Category) (hc : c ∈ l) (hn : c.name = name) (ht : c.ctype = category_type) :
    l.find? (fun c => c.name = name ∧ c.ctype = category_type) = some c := by
  induction l with
  | nil => cases hc
  | cons a l ih =>
    rw [List.map_cons, List.nodup_cons] at h
    by_cases ha : a.name = name ∧ a.ctype = category_type
    · have hac : a = c := by
        rcases List.mem_cons.mp hc with h1 | h1
        · exact h1.symm
        · exfalso
          apply h.1
          have : (a.name, a.ctype) = (c.name, c.ctype) := by
            rw [ha.1, ha.2, hn, ht]
          rw [this]
          exact List.mem_map.mpr ⟨c, h1, rfl⟩
      rw [List.find?_cons_of_pos _ (by simpa using ha), hac]
    · have hcl : c ∈ l := by
        rcases List.mem_cons.mp hc with h1 | h1
        · subst h1
          exact absurd ⟨hn, ht⟩ ha
        · exact h1
      rw [List.find?_cons_of_neg _ (by simpa using ha)]
      exact ih h.2 hcl

/-- C1: under the (name, type) uniqueness invariant, `add_category` with an
already-present pair returns the existing row's id and changes nothing;
the invariant survives any sequence of `add_category` calls; and once an
add has returned identifier `i` for a pair, every later `add_category`
with that pair (after any further adds) returns the same `i`. -/
theorem add_category_unique (name color color2 category_type : String)
    (ops : List (String × String × String)) (s : DBState)
    (h : CatKeyUnique s) :
    CatKeyUnique (applyAdds ops s)
    ∧ (∀ c ∈ s.categories, c.name = name → c.ctype = category_type →
        Database.add_category name color category_type s = (some c.id, s))
    ∧ (∀ i, (Database.add_category name color category_type s).1 = some i →
        (Database.add_category name color2 category_type
            (applyAdds ops (Database.add_category name color category_type s).2)).1
          = some i) := by
  refine ⟨applyAdds_preserves ops s h, ?_, ?_⟩
  · intro c hc hn ht
    unfold Database.add_category
    rw [find_of_unique name category_type s.categories h c hc hn ht]
  · intro i hi
    set s1 := (Database.add_category name color category_type s).2 with hs1
    have h1 : CatKeyUnique s1 := add_category_preserves name color category_type s h
    have hrow : ∃ c ∈ s1.categories,
        c.name = name ∧ c.ctype = category_type ∧ c.id = i := by
      unfold Database.add_category at hi hs1
      cases hf : s.categories.find? (fun c => c.name = name ∧ c.ctype = category_type) with
      | some d =>
        rw [hf] at hi hs1
        have hd := List.find?_some hf
        simp only [decide_eq_true_eq] at hd
        refine ⟨d, ?_, hd.1, hd.2, ?_⟩
        · rw [hs1]
          exact List.mem_of_find?_eq_some hf
        · simpa using hi
      | none =>
        rw [hf] at hi hs1
        simp only [Option.some.injEq] at hi
        refine ⟨⟨newRowId (s.categories.map (·.id)), name, color, category_type⟩,
          ?_, rfl, rfl, by simpa using hi⟩
        rw [hs1]
        exact List.mem_append_right _ (List.mem_singleton.mpr rfl)
    obtain ⟨c, hcmem, hcn, hct, hci⟩ := hrow
    have h2 : CatKeyUnique (applyAdds ops s1) := applyAdds_preserves ops s1 h1
    have hmem2 : c ∈ (applyAdds ops s1).categories := applyAdds_mem ops s1 c hcmem
    unfold Database.add_category
    rw [find_of_unique name category_type (applyAdds ops s1).categories h2 c hmem2 hcn hct]
    show some c.id = some i
    rw [hci]

/-- Witness for C1: re-adding ("Food", "expense") around an interleaved
add, at the concrete example state. -/
theorem add_category_unique_w :
    CatKeyUnique (applyAdds [("X", "#333333", "income")] exDB)
    ∧ (∀ c ∈ exDB.categories, c.name = "Food" → c.ctype = "expense" →
        Database.add_category "Food" "#111111" "expense" exDB = (some c.id, exDB))
    ∧ (∀ i, (Database.add_category "Food" "#111111" "expense" exDB).1 = some i →
        (Database.add_category "Food" "#222222" "expense"
            (applyAdds [("X", "#333333", "income")]
              (Database.add_category "Food" "#111111" "expense" exDB).2)).1
          = some i) :=
  add_category_unique "Food" "#111111" "#222222" "expense"
    [("X", "#333333", "income")] exDB (by decide)

/-! ### C10: no foreign-key enforcement on `add_transaction` -/

/-- C10: with a positive amount and a valid type, `add_transaction`
succeeds and stores the row even when `category_id` matches no category
row; the dangling reference stays on the stored row and surfaces through
the left join as the "Без категории" fallback in `get_all_transactions`. -/
theorem add_transaction_dangling (amount : ℚ) (cid : Nat)
    (description transaction_type : String) (date : Database.DateArg) (now : Date)
    (s : DBState)
    (ha : 0 < amount) (ht : transaction_type = "income" ∨ transaction_type = "expense")
    (hc : ∀ c ∈ s.categories, c.id ≠ cid) :
    ∃ i,
      (Database.add_transaction amount (some cid) description transaction_type
          date now s).1 = some i
      ∧ (∃ t ∈ (Database.add_transaction amount (some cid) description transaction_type
            date now s).2.transactions,
          t.id = i ∧ t.amount = amount ∧ t.category_id = some cid)
      ∧ lookupCategory (Database.add_transaction amount (some cid) description
            transaction_type date now s).2.categories (some cid) = none
      ∧ (∃ v ∈ Database.get_all_transactions
            (Database.add_transaction amount (some cid) description transaction_type
              date now s).2,
          v.id = i ∧ v.category_id = some cid
          ∧ v.category_name = some "Без категории"
          ∧ v.category_color = some "#607D8B") := by
  have hlook : lookupCategory s.categories (some cid) = none := by
    simp only [lookupCategory, Option.bind_some]
    exact List.find?_eq_none.mpr (fun c hcm => by simpa using hc c hcm)
  have hfst : (Database.add_transaction amount (some cid) description transaction_type
      date now s).1 = some (newRowId (s.transactions.map (·.id))) := by
    unfold Database.add_transaction
    rw [if_neg (not_not_intro ht), if_neg (not_le.mpr ha)]
  obtain ⟨row, hstate, hrowid, hrowamt, hrowcat⟩ :
      ∃ row, (Database.add_transaction amount (some cid) description transaction_type
          date now s).2 = { s with transactions := s.transactions ++ [row] }
        ∧ row.id = newRowId (s.transactions.map (·.id))
        ∧ row.amount = amount ∧ row.category_id = some cid := by
    unfold Database.add_transaction
    rw [if_neg (not_not_intro ht), if_neg (not_le.mpr ha)]
    exact ⟨_, rfl, rfl, rfl, rfl⟩
  have hrowmem : row ∈ (Database.add_transaction amount (some cid) description
      transaction_type date now s).2.transactions := by
    rw [hstate]
    exact List.mem_append_right _ (List.mem_singleton.mpr rfl)
  refine ⟨newRowId (s.transactions.map (·.id)), hfst,
    ⟨row, hrowmem, hrowid, hrowamt, hrowcat⟩, ?_, ?_⟩
  · rw [hstate]
    exact hlook
  · refine ⟨viewWithFallback s.categories row, ?_, ?_, ?_, ?_, ?_⟩
    · rw [hstate]
      exact List.mem_map_of_mem _ ((List.mem_insertionSort _).mpr
        (List.mem_append_right _ (List.mem_singleton.mpr rfl)))
    · exact hrowid
    · exact hrowcat
    · simp [viewWithFallback, hrowcat, hlook, orFallback]
    · simp [viewWithFallback, hrowcat, hlook, orFallback]

/-- Witness for C10 at a concrete dangling `category_id = 99`. -/
theorem add_transaction_dangling_w :
    ∃ i,
      (Database.add_transaction 50 (some 99) "" "expense" .noDate ⟨2025, 1, 1⟩ exDB).1
        = some i
      ∧ (∃ t ∈ (Database.add_transaction 50 (some 99) "" "expense" .noDate ⟨2025, 1, 1⟩
            exDB).2.transactions,
          t.id = i ∧ t.amount = 50 ∧ t.category_id = some 99)
      ∧ lookupCategory (Database.add_transaction 50 (some 99) "" "expense" .noDate
            ⟨2025, 1, 1⟩ exDB).2.categories (some 99) = none
      ∧ (∃ v ∈ Database.get_all_transactions
            (Database.add_transaction 50 (some 99) "" "expense" .noDate ⟨2025, 1, 1⟩
              exDB).2,
          v.id = i ∧ v.category_id = some 99
          ∧ v.category_name = some "Без категории"
          ∧ v.category_color = some "#607D8B") :=
  add_transaction_dangling 50 99 "" "expense" .noDate ⟨2025, 1, 1⟩ exDB
    (by norm_num) (Or.inr rfl) (by decide)

/-! ### C8: transaction listings -/

/-- Joined display fields with fallback substitution: the label/color are
the category's when the join hits (and the column is non-empty), the
"Без категории" / "#607D8B" fallbacks when the join misses (or the
column is the empty string — python truthiness). -/
def FallbackJoined (cats : List Category) (v : TxView) : Prop :=
  (lookupCategory cats v.category_id = none →
      v.category_name = some "Без категории" ∧ v.category_color = some "#607D8B")
  ∧ ∀ c, lookupCategory cats v.category_id = some c →
      v.category_name = some (if c.name = "" then "Без категории" else c.name)
      ∧ v.category_color = some (if c.color = "" then "#607D8B" else c.color)

/-- Joined display fields copied raw: null when the join misses. -/
def RawJoined (cats : List Category) (v : TxView) : Prop :=
  v.category_name = (lookupCategory cats v.category_id).map (·.name)
  ∧ v.category_color = (lookupCategory cats v.category_id).map (·.color)

theorem viewWithFallback_joined (cats : List Category) (t : Transaction) :
    FallbackJoined cats (viewWithFallback cats t) := by
  have hid : (viewWithFallback cats t).category_id = t.category_id := rfl
  constructor
  · intro hnone
    rw [hid] at hnone
    simp [viewWithFallback, orFallback, hnone]
  · intro c hsome
    rw [hid] at hsome
    constructor
    · show some (orFallback ((lookupCategory cats t.category_id).map (·.name))
          "Без категории") = _
      rw [hsome]
      rfl
    · show some (orFallback ((lookupCategory cats t.category_id).map (·.color))
          "#607D8B") = _
      rw [hsome]
      rfl

theorem viewRaw_joined (cats : List Category) (t : Transaction) :
    RawJoined cats (viewRaw cats t) :=
  ⟨rfl, rfl⟩

/-- Mapped views of a date-descending sort are date-descending. -/
theorem listing_sorted (g : Transaction → TxView) (hdate : ∀ t, (g t).date = t.date)
    (l : List Transaction) :
    List.Sorted (fun a b : TxView => strLe b.date a.date)
      ((List.insertionSort byDateDesc l).map g) := by
  rw [List.Sorted, List.pairwise_map]
  exact (List.sorted_insertionSort byDateDesc l).imp
    (fun {a b} hab => by
      show strLe (g b).date (g a).date
      rw [hdate, hdate]
      exact hab)

/-- The ids of the mapped sorted views are a permutation of the source
rows' ids. -/
theorem listing_ids_perm (g : Transaction → TxView) (hid : ∀ t, (g t).id = t.id)
    (l : List Transaction) :
    (((List.insertionSort byDateDesc l).map g).map (·.id)).Perm (l.map (·.id)) := by
  rw [List.map_map]
  have h1 : (List.insertionSort byDateDesc l).map ((·.id) ∘ g)
      = (List.insertionSort byDateDesc l).map (·.id) :=
    List.map_congr_left (fun t _ => hid t)
  rw [h1]
  exact (List.perm_insertionSort byDateDesc l).map _

/-- C8 (amended): every listing returns its matching transactions
newest-date-first (ids a permutation of the matching rows' ids);
`get_all_transactions`, `get_transactions_by_type` and
`get_transactions_by_date_range` substitute the fallback label/color when
the join misses or yields an empty string, while
`get_transactions_by_category` copies the joined columns raw (null on a
missed join). -/
theorem transaction_listings (s : DBState) (transaction_type start_date : String)
    (end_date : Option String) (now : Date) (category_id : Nat) :
    (List.Sorted (fun a b : TxView => strLe b.date a.date)
        (Database.get_all_transactions s)
      ∧ ((Database.get_all_transactions s).map (·.id)).Perm
          (s.transactions.map (·.id))
      ∧ ∀ v ∈ Database.get_all_transactions s, FallbackJoined s.categories v)
    ∧ (List.Sorted (fun a b : TxView => strLe b.date a.date)
        (Database.get_transactions_by_type transaction_type s)
      ∧ ((Database.get_transactions_by_type transaction_type s).map (·.id)).Perm
          ((s.transactions.filter (fun t => t.ttype.toStr = transaction_type)).map (·.id))
      ∧ ∀ v ∈ Database.get_transactions_by_type transaction_type s,
          FallbackJoined s.categories v)
    ∧ (List.Sorted (fun a b : TxView => strLe b.date a.date)
        (Database.get_transactions_by_date_range start_date end_date now s)
      ∧ ((Database.get_transactions_by_date_range start_date end_date now s).map
            (·.id)).Perm
          ((s.transactions.filter (fun t =>
              strLe start_date t.date ∧ strLe t.date (end_date.getD (formatDate now)))).map
            (·.id))
      ∧ ∀ v ∈ Database.get_transactions_by_date_range start_date end_date now s,
          FallbackJoined s.categories v)
    ∧ (List.Sorted (fun a b : TxView => strLe b.date a.date)
        (Database.get_transactions_by_category category_id s)
      ∧ ((Database.get_transactions_by_category category_id s).map (·.id)).Perm
          ((s.transactions.filter (fun t => t.category_id = some category_id)).map (·.id))
      ∧ ∀ v ∈ Database.get_transactions_by_category category_id s,
          RawJoined s.categories v) := by
  refine ⟨⟨listing_sorted _ (fun _ => rfl) _, listing_ids_perm _ (fun _ => rfl) _, ?_⟩,
    ⟨listing_sorted _ (fun _ => rfl) _, listing_ids_perm _ (fun _ => rfl) _, ?_⟩,
    ⟨listing_sorted _ (fun _ => rfl) _, listing_ids_perm _ (fun _ => rfl) _, ?_⟩,
    ⟨listing_sorted _ (fun _ => rfl) _, listing_ids_perm _ (fun _ => rfl) _, ?_⟩⟩ <;>
    intro v hv <;> obtain ⟨t, _, hvt⟩ := List.mem_map.mp hv <;> subst hvt
  · exact viewWithFallback_joined s.categories t
  · exact viewWithFallback_joined s.categories t
  · exact viewWithFallback_joined s.categories t
  · exact viewRaw_joined s.categories t

/-- A state with one transaction whose `category_id` points at no
category row. -/
def danglingDB : DBState := ⟨[], [⟨1, 5, some 42, "2024-01-01", "", .expense⟩]⟩

/-- Counterexample to C8 as stated: in `get_transactions_by_category` the
join misses, yet the returned `category_name` is null, not the
"Без категории" (Uncategorized) fallback the claim asserts. -/
theorem by_category_no_fallback :
    lookupCategory danglingDB.categories (some 42) = none
    ∧ (Database.get_transactions_by_category 42 danglingDB).map (fun v => v.category_name)
        = [none]
    ∧ ¬ ∀ v ∈ Database.get_transactions_by_category 42 danglingDB,
          v.category_name = some "Без категории" := by
  refine ⟨rfl, by decide, ?_⟩
  intro h
  have := h _ (by decide : (⟨1, 5, some 42, none, none, "2024-01-01", "", .expense⟩ : TxView)
    ∈ Database.get_transactions_by_category 42 danglingDB)
  simp at this

/-! ### C7: per-category sums -/

/-- Structural facts about `sum_by_category`: result sorted by total
descending, one record per distinct (coalesced) category key, each total
the sum of its group's amounts, and every matching transaction covered. -/
theorem sum_by_category_props (tt : TxType) (start_date end_date : Option String)
    (s : DBState) :
    List.Sorted byTotalDesc (sum_by_category tt start_date end_date s)
    ∧ ((sum_by_category tt start_date end_date s).map
        (fun x => (x.category_id, x.category_name, x.category_color))).Nodup
    ∧ (∀ x ∈ sum_by_category tt start_date end_date s,
        x.total = (((s.transactions.filter (fun t =>
            decide (t.ttype = tt) && dateCond start_date end_date t.date)).filter
            (fun t => joinKey s.categories t
              = (x.category_id, x.category_name, x.category_color))).map (·.amount)).sum
        ∧ ∃ t ∈ s.transactions.filter (fun t =>
            decide (t.ttype = tt) && dateCond start_date end_date t.date),
            joinKey s.categories t = (x.category_id, x.category_name, x.category_color))
    ∧ (∀ t ∈ s.transactions.filter (fun t =>
          decide (t.ttype = tt) && dateCond start_date end_date t.date),
        ∃ x ∈ sum_by_category tt start_date end_date s,
          (x.category_id, x.category_name, x.category_color) = joinKey s.categories t) := by
  refine ⟨List.sorted_insertionSort _ _, ?_, ?_, ?_⟩
  · have hperm : ((sum_by_category tt start_date end_date s).map
        (fun x => (x.category_id, x.category_name, x.category_color))).Perm
        (((s.transactions.filter (fun t =>
            decide (t.ttype = tt) && dateCond start_date end_date t.date)).map
            (joinKey s.categories)).dedup) := by
      have h1 := (List.perm_insertionSort byTotalDesc
        ((((s.transactions.filter (fun t =>
            decide (t.ttype = tt) && dateCond start_date end_date t.date)).map
            (joinKey s.categories)).dedup).map (fun k =>
          (⟨k.1, k.2.1, k.2.2,
            (((s.transactions.filter (fun t =>
                decide (t.ttype = tt) && dateCond start_date end_date t.date)).filter
                (fun t => joinKey s.categories t = k)).map (·.amount)).sum⟩ : CatSum)))).map
        (fun x => (x.category_id, x.category_name, x.category_color))
      refine h1.trans ?_
      rw [List.map_map]
      have h2 : ∀ k ∈ ((s.transactions.filter (fun t =>
          decide (t.ttype = tt) && dateCond start_date end_date t.date)).map
          (joinKey s.categories)).dedup,
          ((fun x : CatSum => (x.category_id, x.category_name, x.category_color)) ∘
            (fun k => (⟨k.1, k.2.1, k.2.2,
              (((s.transactions.filter (fun t =>
                  decide (t.ttype = tt) && dateCond start_date end_date t.date)).filter
                  (fun t => joinKey s.categories t = k)).map (·.amount)).sum⟩ : CatSum))) k
            = id k := fun k _ => rfl
      rw [List.map_congr_left h2, List.map_id]
    exact hperm.nodup_iff.mpr (List.nodup_dedup _)
  · intro x hx
    have hx1 : x ∈ ((s.transactions.filter (fun t =>
        decide (t.ttype = tt) && dateCond start_date end_date t.date)).map
        (joinKey s.categories)).dedup.map (fun k =>
          (⟨k.1, k.2.1, k.2.2,
            (((s.transactions.filter (fun t =>
                decide (t.ttype = tt) && dateCond start_date end_date t.date)).filter
                (fun t => joinKey s.categories t = k)).map (·.amount)).sum⟩ : CatSum)) :=
      (List.mem_insertionSort _).mp hx
    obtain ⟨k, hk, hxk⟩ := List.mem_map.mp hx1
    subst hxk
    refine ⟨rfl, ?_⟩
    obtain ⟨t, ht, htk⟩ := List.mem_map.mp (List.mem_dedup.mp hk)
    exact ⟨t, ht, htk⟩
  · intro t ht
    refine ⟨⟨(joinKey s.categories t).1, (joinKey s.categories t).2.1,
      (joinKey s.categories t).2.2,
      (((s.transactions.filter (fun t =>
          decide (t.ttype = tt) && dateCond start_date end_date t.date)).filter
          (fun u => joinKey s.categories u = joinKey s.categories t)).map (·.amount)).sum⟩,
      ?_, rfl⟩
    refine (List.mem_insertionSort _).mpr (List.mem_map.mpr ⟨joinKey s.categories t, ?_, rfl⟩)
    exact List.mem_dedup.mpr (List.mem_map.mpr ⟨t, ht, rfl⟩)

/-- C7: `get_expenses_by_category` and `get_income_by_category` are the
two instances of the shared grouped query; for either type the result
groups the matching transactions by their coalesced category key —
transactions whose join misses fall into the single synthetic
`(0, "Без категории", "#607D8B")` group — with each record's total the
sum of its group's amounts, one record per occupied group, ordered by
total descending. -/
theorem sum_by_category_grouped (start_date end_date : Option String) (s : DBState) :
    Database.get_expenses_by_category start_date end_date s
        = sum_by_category .expense start_date end_date s
    ∧ Database.get_income_by_category start_date end_date s
        = sum_by_category .income start_date end_date s
    ∧ (∀ t : Transaction, lookupCategory s.categories t.category_id = none →
        joinKey s.categories t = (0, "Без категории", "#607D8B"))
    ∧ ∀ tt : TxType,
        List.Sorted byTotalDesc (sum_by_category tt start_date end_date s)
        ∧ ((sum_by_category tt start_date end_date s).map
            (fun x => (x.category_id, x.category_name, x.category_color))).Nodup
        ∧ (∀ x ∈ sum_by_category tt start_date end_date s,
            x.total = (((s.transactions.filter (fun t =>
                decide (t.ttype = tt) && dateCond start_date end_date t.date)).filter
                (fun t => joinKey s.categories t
                  = (x.category_id, x.category_name, x.category_color))).map (·.amount)).sum
            ∧ ∃ t ∈ s.transactions.filter (fun t =>
                decide (t.ttype = tt) && dateCond start_date end_date t.date),
                joinKey s.categories t = (x.category_id, x.category_name, x.category_color))
        ∧ (∀ t ∈ s.transactions.filter (fun t =>
              decide (t.ttype = tt) && dateCond start_date end_date t.date),
            ∃ x ∈ sum_by_category tt start_date end_date s,
              (x.category_id, x.category_name, x.category_color)
                = joinKey s.categories t) := by
  refine ⟨rfl, rfl, ?_, fun tt => sum_by_category_props tt start_date end_date s⟩
  intro t hmiss
  unfold joinKey
  rw [hmiss]

/-! ### C6: per-month sums -/

/-- The month record the client-side fold produces for one month: each
type's sum over its group (0 when the group is empty) and their
difference as the balance. -/
def monthRecFor (ts : List Transaction) (m : String) : MonthRec :=
  ⟨m, (groupAmounts ts m .income).sum, (groupAmounts ts m .expense).sum,
    (groupAmounts ts m .income).sum - (groupAmounts ts m .expense).sum⟩

/-- Folding one month's grouped rows over an accumulator free of that
month's key appends exactly that month's record. -/
theorem foldl_monthRowsFor (ts : List Transaction) (m : String) (acc : List MonthRec)
    (hex : ∃ t ∈ ts, monthOf t.date = m)
    (hfresh : ∀ r ∈ acc, r.month ≠ m) :
    (monthRowsFor ts m).foldl foldMonthRow acc = acc ++ [monthRecFor ts m] := by
  have hany : acc.any (fun r => r.month = m) = false := by
    rw [List.any_eq_false]
    intro r hr
    simpa using hfresh r hr
  have hstep1 : ∀ tt total, foldMonthRow acc (m, tt, total)
      = acc ++ [updMonthRec tt total ⟨m, 0, 0, 0⟩] := by
    intro tt total
    simp only [foldMonthRow, hany]
    rfl
  by_cases he : groupAmounts ts m .expense = []
  · by_cases hi : groupAmounts ts m .income = []
    · exfalso
      obtain ⟨t, ht, hm⟩ := hex
      cases htt : t.ttype with
      | income =>
        apply List.ne_nil_of_mem (a := t.amount) _ hi
        exact List.mem_map_of_mem _ (List.mem_filter.mpr ⟨ht, by simp [hm, htt]⟩)
      | expense =>
        apply List.ne_nil_of_mem (a := t.amount) _ he
        exact List.mem_map_of_mem _ (List.mem_filter.mpr ⟨ht, by simp [hm, htt]⟩)
    · rw [monthRowsFor, if_pos he, if_neg hi, List.nil_append, List.foldl_cons,
        List.foldl_nil, hstep1]
      simp [updMonthRec, monthRecFor, he]
  · by_cases hi : groupAmounts ts m .income = []
    · rw [monthRowsFor, if_neg he, if_pos hi, List.append_nil, List.foldl_cons,
        List.foldl_nil, hstep1]
      simp [updMonthRec, monthRecFor, hi]
    · rw [monthRowsFor, if_neg he, if_neg hi, List.singleton_append, List.foldl_cons,
        List.foldl_cons, List.foldl_nil, hstep1]
      have hhit : ((acc ++ [updMonthRec TxType.expense (groupAmounts ts m .expense).sum
          ⟨m, 0, 0, 0⟩]).any (fun r => r.month = m)) = true := by
        rw [List.any_append]
        simp [updMonthRec]
      have hstep2 : foldMonthRow (acc ++ [updMonthRec TxType.expense
          (groupAmounts ts m .expense).sum ⟨m, 0, 0, 0⟩])
            (m, TxType.income, (groupAmounts ts m .income).sum)
          = (acc ++ [updMonthRec TxType.expense (groupAmounts ts m .expense).sum
              ⟨m, 0, 0, 0⟩]).map (fun r => if r.month = m then
                updMonthRec TxType.income (groupAmounts ts m .income).sum r else r) := by
        simp only [foldMonthRow, hhit]
        rfl
      rw [hstep2, List.map_append]
      have h1 : acc.map (fun r =>
          if r.month = m then
            updMonthRec TxType.income (groupAmounts ts m .income).sum r
          else r) = acc :=
        (List.map_congr_left (fun r hr => if_neg (hfresh r hr))).trans (List.map_id' _)
      rw [h1]
      simp [updMonthRec, monthRecFor]

/-- Folding the grouped rows of a run of distinct, accumulator-fresh
months appends their records in order. -/
theorem foldl_monthRows_go (ts : List Transaction) (ms : List String)
    (acc : List MonthRec) (hnd : ms.Nodup)
    (hex : ∀ m ∈ ms, ∃ t ∈ ts, monthOf t.date = m)
    (hfresh : ∀ m ∈ ms, ∀ r ∈ acc, r.month ≠ m) :
    (ms.flatMap (monthRowsFor ts)).foldl foldMonthRow acc
      = acc ++ ms.map (monthRecFor ts) := by
  induction ms generalizing acc with
  | nil => simp
  | cons m ms ih =>
    have hfresh2 : ∀ m' ∈ ms, ∀ r ∈ acc ++ [monthRecFor ts m], r.month ≠ m' := by
      intro m' hm' r hr
      rcases List.mem_append.mp hr with h1 | h1
      · exact hfresh m' (List.mem_cons_of_mem m hm') r h1
      · rw [List.mem_singleton.mp h1]
        intro hmm
        apply (List.nodup_cons.mp hnd).1
        have hmm2 : m = m' := hmm
        rw [hmm2]
        exact hm'
    rw [List.flatMap_cons, List.foldl_append,
      foldl_monthRowsFor ts m acc (hex m (List.mem_cons_self m ms))
        (hfresh m (List.mem_cons_self m ms)),
      ih (acc ++ [monthRecFor ts m]) (List.nodup_cons.mp hnd).2
        (fun m' hm' => hex m' (List.mem_cons_of_mem m hm')) hfresh2]
    simp

/-- The distinct months of the matching rows are exactly their
`monthOf` images. -/
theorem mem_monthKeys (ts : List Transaction) (m : String) :
    m ∈ monthKeys ts ↔ ∃ t ∈ ts, monthOf t.date = m := by
  rw [monthKeys, List.mem_insertionSort, List.mem_dedup, List.mem_map]

theorem monthKeys_nodup (ts : List Transaction) : (monthKeys ts).Nodup :=
  (List.perm_insertionSort strLe _).nodup_iff.mpr (List.nodup_dedup _)

/-- The client-side fold of the grouped query rows yields one record per
distinct month, in key order. -/
theorem foldl_monthRows (ts : List Transaction) :
    (monthRows ts).foldl foldMonthRow [] = (monthKeys ts).map (monthRecFor ts) := by
  rw [monthRows, foldl_monthRows_go ts (monthKeys ts) [] (monthKeys_nodup ts)
    (fun m hm => (mem_monthKeys ts m).mp hm) (fun m _ r hr => absurd hr (List.not_mem_nil r))]
  rfl

/-- C6: `get_transactions_by_month` returns exactly one record per
calendar month having matching transactions (month keys distinct,
membership exactly the months of matching rows), sorted ascending by the
`YYYY-MM` key, with each record's income/expense the month's type sums
(0 when a type is absent) and `balance = income - expense`. -/
theorem transactions_by_month_spec (start_date end_date : Option String) (s : DBState) :
    List.Sorted byMonthAsc (get_transactions_by_month start_date end_date s)
    ∧ ((get_transactions_by_month start_date end_date s).map (·.month)).Nodup
    ∧ (∀ m : String,
        m ∈ (get_transactions_by_month start_date end_date s).map (·.month)
        ↔ ∃ t ∈ s.transactions.filter (fun t => dateCond start_date end_date t.date),
            monthOf t.date = m)
    ∧ ∀ x ∈ get_transactions_by_month start_date end_date s,
        x.income = (groupAmounts (s.transactions.filter
            (fun t => dateCond start_date end_date t.date)) x.month .income).sum
        ∧ x.expense = (groupAmounts (s.transactions.filter
            (fun t => dateCond start_date end_date t.date)) x.month .expense).sum
        ∧ x.balance = x.income - x.expense := by
  have hres : get_transactions_by_month start_date end_date s
      = List.insertionSort byMonthAsc
          ((monthKeys (s.transactions.filter
            (fun t => dateCond start_date end_date t.date))).map
            (monthRecFor (s.transactions.filter
              (fun t => dateCond start_date end_date t.date)))) := by
    rw [get_transactions_by_month]
    rw [foldl_monthRows]
  refine ⟨?_, ?_, ?_, ?_⟩
  · rw [hres]
    exact List.sorted_insertionSort _ _
  · rw [hres]
    have hperm := (List.perm_insertionSort byMonthAsc
      ((monthKeys (s.transactions.filter
        (fun t => dateCond start_date end_date t.date))).map
        (monthRecFor (s.transactions.filter
          (fun t => dateCond start_date end_date t.date))))).map (fun x : MonthRec => x.month)
    rw [hperm.nodup_iff, List.map_map]
    have h2 : ∀ m ∈ monthKeys (s.transactions.filter
        (fun t => dateCond start_date end_date t.date)),
        ((fun x : MonthRec => x.month) ∘ monthRecFor (s.transactions.filter
          (fun t => dateCond start_date end_date t.date))) m = id m := fun m _ => rfl
    rw [List.map_congr_left h2, List.map_id]
    exact monthKeys_nodup _
  · intro m
    rw [hres]
    constructor
    · intro hm
      obtain ⟨x, hx, hxm⟩ := List.mem_map.mp hm
      obtain ⟨k, hk, hkx⟩ := List.mem_map.mp ((List.mem_insertionSort _).mp hx)
      have : k = m := by rw [← hxm, ← hkx]; rfl
      subst this
      exact (mem_monthKeys _ k).mp hk
    · intro hm
      have hk := (mem_monthKeys (s.transactions.filter
        (fun t => dateCond start_date end_date t.date)) m).mpr hm
      exact List.mem_map.mpr ⟨monthRecFor _ m,
        (List.mem_insertionSort _).mpr (List.mem_map.mpr ⟨m, hk, rfl⟩), rfl⟩
  · intro x hx
    rw [hres] at hx
    obtain ⟨k, _, hkx⟩ := List.mem_map.mp ((List.mem_insertionSort _).mp hx)
    subst hkx
    exact ⟨rfl, rfl, rfl⟩

end FinanceTracker
